import Mathlib

/-!
Verification development for the practicelife-api repository.

The JavaScript sources are shallowly embedded: each pure computation is a
Lean function over explicit inputs; external effects (the network socket,
the filesystem, the process table, child processes, the SQLite store) are
modelled as oracle inputs carrying the value the effectful call returned.
JS strings are modelled as Lean strings, JS numbers as Nat / Int / Rat
where the code only performs the corresponding exact operations, and
null / undefined as Option.
-/

namespace PL

/-! ## JS string builtin models -/

/-- Suffix of the haystack after the first occurrence of the needle, or
none when the needle does not occur.  Used to model both
String.prototype.includes and query extraction. -/
def restAfter (needle : List Char) : List Char → Option (List Char)
  | [] => if needle.isPrefixOf ([] : List Char) then some [] else none
  | c :: t =>
      if needle.isPrefixOf (c :: t) then some ((c :: t).drop needle.length)
      else restAfter needle t

/-- Model of the JS expression hay.includes(needle): true iff the needle
occurs contiguously in the haystack (the empty needle always occurs). -/
def jsIncludes (hay needle : String) : Bool :=
  (restAfter needle.data hay.data).isSome

/-- Split a character list at every occurrence of the separator; the
result always has one more piece than there are separators. -/
def splitOnChar (sep : Char) : List Char → List (List Char)
  | [] => [[]]
  | c :: rest =>
      if c = sep then [] :: splitOnChar sep rest
      else match splitOnChar sep rest with
        | h :: t => (c :: h) :: t
        | [] => [[c]]

/-- Model of the JS expression s.split(sep) for a one-character
separator. -/
def jsSplitChar (s : String) (sep : Char) : List String :=
  (splitOnChar sep s.data).map String.mk

/-- Join pieces back with a separator character (inverse of
splitOnChar). -/
def joinSep (sep : Char) : List (List Char) → List Char
  | [] => []
  | [x] => x
  | x :: xs => x ++ sep :: joinSep sep xs

/-- Join strings with a separator character. -/
def joinWithChar (sep : Char) (pieces : List String) : String :=
  String.mk (joinSep sep (pieces.map String.data))

/-- Split at the first equals sign: key and raw remainder (which may
contain further equals signs), or none when there is no equals sign. -/
def breakAtEq : List Char → Option (List Char × List Char)
  | [] => none
  | c :: rest =>
      if c = '=' then some ([], rest)
      else (breakAtEq rest).map (fun p => (c :: p.1, p.2))

/-- Model of the JS expression s.slice(n) for a nonnegative index. -/
def jsSlice (s : String) (n : Nat) : String :=
  String.mk (s.data.drop n)

/-- Model of the JS expression s.slice(0, n) for a nonnegative index. -/
def jsTake (s : String) (n : Nat) : String :=
  String.mk (s.data.take n)

/-- Model of the JS expression s.startsWith(pre). -/
def strStartsWith (s pre : String) : Bool :=
  pre.data.isPrefixOf s.data

/-- Value of a hexadecimal digit, or none. -/
def hexVal (c : Char) : Option Nat :=
  let n := c.toNat
  if 48 ≤ n ∧ n ≤ 57 then some (n - 48)
  else if 97 ≤ n ∧ n ≤ 102 then some (n - 87)
  else if 65 ≤ n ∧ n ≤ 70 then some (n - 55)
  else none

/-- Percent-decoding over characters: a percent sign followed by two hex
digits becomes the denoted byte; anything else passes through unchanged.
Models the JS decoding builtins restricted to well-formed single-byte
escapes (the builtins decode multi-byte UTF-8 runs, and
decodeURIComponent raises URIError on malformed input; neither case is
exercised by any claim, so malformed or multi-byte escapes pass through
here byte by byte). -/
def percentDecodeChars : List Char → List Char
  | '%' :: a :: b :: rest =>
      match hexVal a, hexVal b with
      | some hi, some lo => Char.ofNat (16 * hi + lo) :: percentDecodeChars rest
      | _, _ => '%' :: percentDecodeChars (a :: b :: rest)
  | c :: rest => c :: percentDecodeChars rest
  | [] => []

/-- Model of the JS builtin decodeURIComponent (see percentDecodeChars
for the modelled domain). -/
def decodeURIComponent (s : String) : String :=
  String.mk (percentDecodeChars s.data)

/-- Model of application/x-www-form-urlencoded value decoding as done by
URLSearchParams: plus becomes space, then percent-decoding. -/
def formDecode (s : String) : String :=
  String.mk (percentDecodeChars (s.data.map (fun c => if c = '+' then ' ' else c)))

/-- Pathname component of an origin-form request target: everything
before the first question mark or hash.  Models new URL(url, base).pathname
for the origin-form targets (no dot segments) this server receives. -/
def urlPathname (url : String) : String :=
  String.mk (url.data.takeWhile (fun c => c != '?' && c != '#'))

/-- Query component of an origin-form request target: everything after
the first question mark, fragment excluded; empty when there is none. -/
def queryOf (url : String) : String :=
  match restAfter ['?'] (url.data.takeWhile (fun c => c != '#')) with
  | some q => String.mk q
  | none => ""

/-- Split one query segment at its first equals sign into raw key and
raw value, the value keeping any further equals signs; with no equals
sign the whole segment is the key and the value is empty. -/
def pairOfSegment (seg : String) : String × String :=
  match breakAtEq seg.data with
  | some p => (String.mk p.1, String.mk p.2)
  | none => (seg, "")

/-- Decoded key/value pairs of the query of a request target, in order,
as URLSearchParams exposes them (empty segments are skipped). -/
def queryPairs (url : String) : List (String × String) :=
  ((jsSplitChar (queryOf url) '&')).filterMap (fun seg =>
    if seg = "" then none
    else some (formDecode (pairOfSegment seg).1, formDecode (pairOfSegment seg).2))

/-- Model of url.searchParams.get(name): the first value whose decoded
key equals the name, or none. -/
def searchParamGet (url name : String) : Option String :=
  ((queryPairs url).find? (fun p => p.1 == name)).map (fun p => p.2)

/-- Model of the JS idiom (x || d) on a nullable string x: null and the
empty string are falsy and yield the default. -/
def jsStrOr (o : Option String) (d : String) : String :=
  match o with
  | some s => if s = "" then d else s
  | none => d

/-! ## Pattern router (src/lib/router.js) -/

/-- One registered route.  The handler is represented by an opaque
numeric identifier; the source stores a closure which no claim inspects. -/
structure Route where
  method : String
  pattern : String
  handler : Nat
deriving DecidableEq

/-- Model of params[name] = value on a JS object: overwrite in place when
the key exists, append otherwise. -/
def objSet : List (String × String) → String → String → List (String × String)
  | [], k, v => [(k, v)]
  | p :: rest, k, v => if p.1 == k then (k, v) :: rest else p :: objSet rest k v

/-- Segment loop of matchPattern: placeholder segments bind the decoded
path segment, literal segments must be equal, as in the source loop. -/
def matchSegs : List String → List String → List (String × String) → Option (List (String × String))
  | [], [], params => some params
  | p :: ps, x :: xs, params =>
      if strStartsWith p (":") then matchSegs ps xs (objSet params (jsSlice p 1) (decodeURIComponent x))
      else if p == x then matchSegs ps xs params
      else none
  | _, _, _ => none

/-- matchPattern from src/lib/router.js: split on slash, reject on
differing segment counts, then run the segment loop. -/
def matchPattern (pattern pathname : String) : Option (List (String × String)) :=
  let pp := jsSplitChar pattern '/'
  let xs := jsSplitChar pathname '/'
  if pp.length = xs.length then matchSegs pp xs [] else none

/-- Route-table scan of Router.match: first route with equal method whose
pattern matches the pathname wins. -/
def routerFind : List Route → String → String → Option (Nat × List (String × String))
  | [], _, _ => none
  | r :: rest, method, pathname =>
      if r.method == method then
        match matchPattern r.pattern pathname with
        | some params => some (r.handler, params)
        | none => routerFind rest method pathname
      else routerFind rest method pathname

/-- Router.match from src/lib/router.js: extract the pathname of the
request target, then scan the route table in registration order. -/
def routerMatch (routes : List Route) (method url : String) : Option (Nat × List (String × String)) :=
  routerFind routes method (urlPathname url)

/-- Spec-side segment admissibility, following the claim wording: a
pattern segment is a named placeholder or must equal the path segment. -/
def segOk (p x : String) : Bool :=
  strStartsWith p (":") || p == x

/-- Spec-side route admissibility, following the claim wording: same
method, same segment count, every literal segment equal. -/
def specRouteMatches (method pathname : String) (r : Route) : Bool :=
  r.method == method &&
    (let pp := jsSplitChar r.pattern '/'
     let xs := jsSplitChar pathname '/'
     pp.length == xs.length && (pp.zip xs).all (fun q => segOk q.1 q.2))

/-- Spec-side parameter extraction, following the claim wording: each
named placeholder populates params with the URI-decoded path segment. -/
def specParamsGo : List String → List String → List (String × String) → List (String × String)
  | p :: ps, x :: xs, params =>
      if strStartsWith p (":") then specParamsGo ps xs (objSet params (jsSlice p 1) (decodeURIComponent x))
      else specParamsGo ps xs params
  | _, _, params => params

/-- Spec-side parameters of a pattern applied to a pathname. -/
def specParams (pattern pathname : String) : List (String × String) :=
  specParamsGo (jsSplitChar pattern '/') (jsSplitChar pathname '/') []

/-! ## Probe orchestrator (src/routes/fleet.js, probe) -/

/-- Payload carried by a successful probe: the parsed response body, or a
truncated raw-text fallback when parsing failed. -/
inductive ProbeData (J : Type) where
  | parsed (value : J)
  | raw (text : String)
deriving DecidableEq

/-- Result value of one probe.  The JS object omits the status, data and
timeout keys on some paths; absence is modelled by the defaults none /
false. -/
structure ProbeResult (J : Type) where
  ok : Bool
  latencyMs : Nat
  status : Option Nat := none
  data : Option (ProbeData J) := none
  timeout : Bool := false
deriving DecidableEq

/-- What the socket layer delivered for one probe: a full response (with
elapsed time when the body ended), an immediate connection error, or the
self-timeout firing.  The network itself is the external collaborator;
this value is the oracle input to probe. -/
inductive NetOutcome where
  | response (statusCode : Nat) (body : String) (elapsedMs : Nat)
  | connError (elapsedMs : Nat)
  | timedOut
deriving DecidableEq

/-- probe from src/routes/fleet.js, as a function of the socket outcome.
parseJson models the JSON.parse builtin (none = the parse threw); J is
the shape the caller reads out of the parsed body.  Every outcome maps to
a terminal ProbeResult value: the try/catch around parsing and the error
and timeout callbacks each resolve the promise, never reject it. -/
def probe {J : Type} (parseJson : String → Option J) (timeoutMs : Nat) (o : NetOutcome) : ProbeResult J :=
  match o with
  | NetOutcome.response sc body el =>
      match parseJson body with
      | some v => { ok := true, latencyMs := el, status := some sc, data := some (ProbeData.parsed v) }
      | none => { ok := true, latencyMs := el, status := some sc, data := some (ProbeData.raw (jsTake body 500)) }
  | NetOutcome.connError el => { ok := false, latencyMs := el }
  | NetOutcome.timedOut => { ok := false, latencyMs := timeoutMs, timeout := true }

/-! ## Multi-source health aggregator (src/routes/agent-lifecycle.js) -/

/-- One row of the Active Agents table of agent-protocol.md, as parsed by
getActiveAgents (which reads the protocol file, an external input). -/
structure ProtocolAgent where
  id : String
  name : String
  model : String
  interface : String
  status : String
  focus : String
deriving DecidableEq

/-- One process line surfaced by getRunningAgentProcesses (the process
table is an external input; these records pass through fusion untouched). -/
structure ProcessAgent where
  user : String
  pid : String
  cpu : String
  mem : String
  command : String
deriving DecidableEq

/-- One session-log record produced by getActiveAgentSessions (the log
directory is an external input).  In the source isRecentlyActive is set
to ageMs < 3600000 at parse time; it is carried as a field here exactly
as in the record. -/
structure SessionRecord where
  logFile : String
  agentName : String
  status : String
  focus : String
  model : String
  lastModified : String
  ageMs : Nat
  isRecentlyActive : Bool
deriving DecidableEq

/-- One merged record of the health map.  Keys absent from the JS object
on some construction paths (id, lastActivity, sessionLog, ageMs) are
Options. -/
structure AgentEntry where
  name : String
  id : Option String := none
  model : String
  status : String
  focus : String
  source : String
  protocolStatus : Option String
  lastActivity : Option String := none
  sessionLog : Option String := none
  ageMs : Option Nat := none
deriving DecidableEq

/-- Map.set on the health map.  Throughout getAgentHealth the map key is
always the name field of the stored record, so the key is represented by
that field: overwrite in place when present, append otherwise. -/
def healthSet : List AgentEntry → String → AgentEntry → List AgentEntry
  | [], _, v => [v]
  | e :: rest, k, v => if e.name == k then v :: rest else e :: healthSet rest k v

/-- Seed entry for one protocol row. -/
def protocolEntry (a : ProtocolAgent) : AgentEntry :=
  { name := a.name, id := some a.id, model := a.model, status := a.status,
    focus := a.focus, source := "protocol", protocolStatus := some a.status }

/-- Seed the health map with one entry per protocol row, in row order. -/
def seedHealth (protocolAgents : List ProtocolAgent) : List AgentEntry :=
  protocolAgents.foldl (fun m a => healthSet m a.name (protocolEntry a)) []

/-- In-place enrichment of a matched entry: lastActivity, sessionLog and
ageMs are set; every other field (source included) is untouched. -/
def enrich (e : AgentEntry) (s : SessionRecord) : AgentEntry :=
  { e with lastActivity := some s.lastModified, sessionLog := some s.logFile,
           ageMs := some s.ageMs }

/-- The find predicate of the session loop: the entry name equals the
session agent name, or is contained as a substring within it. -/
def entryMatches (e : AgentEntry) (s : SessionRecord) : Bool :=
  e.name == s.agentName || jsIncludes s.agentName e.name

/-- Enrich the first entry (in insertion order) matched by the session
record, or report that none matched. -/
def enrichFirst : List AgentEntry → SessionRecord → Option (List AgentEntry)
  | [], _ => none
  | e :: rest, s =>
      if entryMatches e s then some (enrich e s :: rest)
      else (enrichFirst rest s).map (fun m => e :: m)

/-- Fresh entry inserted for a session record that matched nothing. -/
def sessionEntry (s : SessionRecord) : AgentEntry :=
  { name := s.agentName, model := s.model, status := s.status, focus := s.focus,
    lastActivity := some s.lastModified, sessionLog := some s.logFile,
    ageMs := some s.ageMs, source := "session-log", protocolStatus := none }

/-- One iteration of the session enrichment loop of getAgentHealth. -/
def fuseStep (m : List AgentEntry) (s : SessionRecord) : List AgentEntry :=
  match enrichFirst m s with
  | some m2 => m2
  | none => healthSet m s.agentName (sessionEntry s)

/-- The session enrichment phase: recently active records only, in list
order. -/
def fuseSessions (m : List AgentEntry) (sessions : List SessionRecord) : List AgentEntry :=
  (sessions.filter (fun s => s.isRecentlyActive)).foldl fuseStep m

/-- The truthiness test a.ageMs && a.ageMs < 3600000 of the summary: an
absent ageMs and the falsy value 0 both fail the first conjunct. -/
def jsAgeRecent (a : Option Nat) : Bool :=
  match a with
  | some n => if n = 0 then false else decide (n < 3600000)
  | none => false

/-- Derived summary counts of getAgentHealth. -/
structure HealthSummary where
  total : Nat
  active : Nat
  parked : Nat
  recentlyActive : Nat
deriving DecidableEq

/-- Return value of getAgentHealth. -/
structure AgentHealth where
  agents : List AgentEntry
  summary : HealthSummary
  processes : List ProcessAgent
  timestamp : String
deriving DecidableEq

/-- getAgentHealth from src/routes/agent-lifecycle.js, as a function of
the three independently parsed sources (its three getters read the
filesystem and process table) and of the clock reading used for the
timestamp. -/
def getAgentHealth (protocolAgents : List ProtocolAgent) (processAgents : List ProcessAgent)
    (sessionAgents : List SessionRecord) (now : String) : AgentHealth :=
  let m := fuseSessions (seedHealth protocolAgents) sessionAgents
  { agents := m
    summary :=
      { total := m.length
        active := (m.filter (fun a => a.status == "Active")).length
        parked := (m.filter (fun a => a.status == "Parked")).length
        recentlyActive := (m.filter (fun a => jsAgeRecent a.ageMs)).length }
    processes := processAgents
    timestamp := now }

/-! ## Vault endpoints (src/unnamed/part_000) -/

/-- One listed note, as produced by listNotes in src/lib/vault.js. -/
structure NoteInfo where
  name : String
  path : String
  modified : String
deriving DecidableEq

/-- Response body of the vault endpoints, up to the shapes the claims
inspect. -/
inductive VaultBody where
  | err (message : String)
  | notes (notes : List NoteInfo) (directory : String)
  | note (path : String) (content : String)
deriving DecidableEq

/-- GET /api/vault/notes handler.  listNotes reads the vault directory,
an external input passed as an oracle. -/
def vaultNotesGet (listNotes : String → List NoteInfo) (url : String) : Nat × VaultBody :=
  let dir := jsStrOr (searchParamGet url ("dir")) ("")
  if jsIncludes dir ("..") then (400, VaultBody.err ("Invalid directory"))
  else (200, VaultBody.notes (listNotes dir) dir)

/-- GET /api/vault/note handler.  readNote reads the vault file (none
models both a missing file and the traversal guard inside
src/lib/vault.js returning null). -/
def vaultNoteGet (readNote : String → Option String) (url : String) : Nat × VaultBody :=
  let notePath := jsStrOr (searchParamGet url ("path")) ("")
  if jsIncludes notePath ("..") then (400, VaultBody.err ("Invalid path"))
  else match readNote notePath with
    | none => (404, VaultBody.err ("Note not found"))
    | some content => (200, VaultBody.note notePath content)

/-! ## Numeric JS builtin models -/

/-- Value of a decimal digit, or none. -/
def decDigit (c : Char) : Option Nat :=
  let n := c.toNat
  if 48 ≤ n ∧ n ≤ 57 then some (n - 48) else none

/-- Decimal tail of the JS parseInt builtin: longest leading digit run,
NaN (none) when empty. -/
def jsParseIntDec (sign : Int) (cs : List Char) : Option Int :=
  let ds := cs.takeWhile (fun c => (decDigit c).isSome)
  if ds = [] then none
  else some (sign * ((ds.foldl (fun a c => a * 10 + ((decDigit c).getD 0)) 0 : Nat) : Int))

/-- Model of the JS builtin parseInt(s) with no radix argument: skip
whitespace, optional sign, hexadecimal on a 0x prefix, else decimal;
none models NaN. -/
def jsParseInt (s : String) : Option Int :=
  let cs := s.data.dropWhile (fun c => c.isWhitespace)
  let sc : Int × List Char :=
    match cs with
    | '-' :: t => (-1, t)
    | '+' :: t => (1, t)
    | _ => (1, cs)
  match sc.2 with
  | '0' :: x :: t =>
      if x = 'x' ∨ x = 'X' then
        let ds := t.takeWhile (fun c => (hexVal c).isSome)
        if ds = [] then none
        else some (sc.1 * ((ds.foldl (fun a c => a * 16 + ((hexVal c).getD 0)) 0 : Nat) : Int))
      else jsParseIntDec sc.1 sc.2
  | _ => jsParseIntDec sc.1 sc.2

/-- Model of the JS builtin parseFloat on the nonnegative plain decimal
literals this code produces (a digit run optionally followed by a point
and a digit run); other inputs yield none (NaN). -/
def jsParseFloat (s : String) : Option ℚ :=
  let cs := s.data
  let ip := cs.takeWhile (fun c => (decDigit c).isSome)
  if ip = [] then none
  else
    let rest := cs.drop ip.length
    let fp := match rest with
      | '.' :: r => r.takeWhile (fun c => (decDigit c).isSome)
      | _ => []
    let ipv : Nat := ip.foldl (fun a c => a * 10 + ((decDigit c).getD 0)) 0
    let fpv : Nat := fp.foldl (fun a c => a * 10 + ((decDigit c).getD 0)) 0
    some ((ipv : ℚ) + (fpv : ℚ) / ((10 : ℚ) ^ fp.length))

/-- Model of Math.round over exact rationals. -/
def jsRound (q : ℚ) : Int := Int.floor (q + 1 / 2)

/-- Model of Number.prototype.toFixed(1) for the nonnegative values
arising here, over exact rationals (binary64 representation noise is
ignored, as no claim inspects these digit strings). -/
def toFixed1 (q : ℚ) : String :=
  let t := (Int.floor (q * 10 + 1 / 2)).toNat
  toString (t / 10) ++ "." ++ toString (t % 10)

/-! ## Atlas endpoints (src/unnamed/part_001) -/

/-- One row of the asset table, restricted to the columns the handler
and the claims consult.  Modelled from the spec: the backing MemoryAtlas
data store (src/lib/db.js is not part of the sources) is the external
queryAssets collaborator of the spec, here a list of rows. -/
structure AssetRow where
  id : Nat
  sourceType : String
  recordedAt : Int
deriving DecidableEq

/-- Modelled from the spec: LIMIT / OFFSET application of the backing
SQLite store (the data-store collaborator of the spec, absent from
src/), following the documented SQLite semantics the handler's SQL text
relies on: a negative LIMIT means no bound, a negative OFFSET means 0. -/
def sqliteLimitOffset {α : Type} (rows : List α) (limit offset : Int) : List α :=
  let dropped := rows.drop offset.toNat
  if limit < 0 then dropped else dropped.take limit.toNat

/-- Insert into a descending-sorted list, keeping it sorted. -/
def insertDesc {α : Type} (key : α → Int) (a : α) : List α → List α
  | [] => [a]
  | b :: t => if key b ≤ key a then a :: b :: t else b :: insertDesc key a t

/-- Descending insertion sort: models ORDER BY key DESC (the claims
never inspect the relative order of equal keys). -/
def orderByDesc {α : Type} (key : α → Int) : List α → List α
  | [] => []
  | a :: t => insertDesc key a (orderByDesc key t)

/-- Modelled from the spec: the row query of the assets handler —
optional source_type filter, ORDER BY recorded_at DESC, then LIMIT and
OFFSET. -/
def atlasQuery (table : List AssetRow) (typeFilter : Option String) (limit offset : Int) : List AssetRow :=
  let base : List AssetRow := match typeFilter with
    | some t => table.filter (fun r => r.sourceType == t)
    | none => table
  let sorted := orderByDesc (fun r => r.recordedAt) base
  sqliteLimitOffset sorted limit offset

/-- Successful body of GET /api/atlas/assets. -/
structure AtlasAssets where
  assets : List AssetRow
  total : Nat
  limit : Int
  offset : Int
deriving DecidableEq

/-- Response body of GET /api/atlas/assets. -/
inductive AtlasBody where
  | err (message : String)
  | page (value : AtlasAssets)
deriving DecidableEq

/-- GET /api/atlas/assets handler from src/unnamed/part_001.  db is the
getDb() result (none = store unavailable, 503).  A NaN limit or offset
reaches the store as an unbindable LIMIT / OFFSET parameter and the call
throws; Except.error models that exception escaping the handler. -/
def atlasAssetsGet (db : Option (List AssetRow)) (url : String) : Except Unit (Nat × AtlasBody) :=
  match db with
  | none => Except.ok (503, AtlasBody.err ("MemoryAtlas database unavailable"))
  | some table =>
    let rawLimit := jsStrOr (searchParamGet url ("limit")) ("50")
    let rawOffset := jsStrOr (searchParamGet url ("offset")) ("0")
    let typeFilter := match searchParamGet url ("type") with
      | some t => if t = "" then none else some t
      | none => none
    match jsParseInt rawLimit, jsParseInt rawOffset with
    | some l, some o =>
        let limit := min l 200
        let filtered : List AssetRow := match typeFilter with
          | some t => table.filter (fun r => r.sourceType == t)
          | none => table
        Except.ok (200, AtlasBody.page
          { assets := atlasQuery table typeFilter limit o
            total := filtered.length
            limit := limit
            offset := o })
    | _, _ => Except.error ()

/-! ## Remote host inspector parser (src/routes/fleet.js, getAnvilSystem) -/

/-- Labeled-field extraction, modelling the regex match LABEL=(.+) with
the fallback to the literal unknown: the first line in which the label
occurs with a nonempty remainder yields that remainder. -/
def labelValue (label : String) (text : String) : String :=
  match (jsSplitChar text '\n').findSome? (fun line =>
    match restAfter label.data line.data with
    | some rest => if rest = [] then none else some (String.mk rest)
    | none => none) with
  | some v => v
  | none => "unknown"

/-- Suffix after the last occurrence of the two-character run up in a
line, or none when it does not occur. -/
def afterLastUp : List Char → Option (List Char)
  | [] => none
  | 'u' :: 'p' :: rest =>
      match afterLastUp rest with
      | some r => some r
      | none => some rest
  | _ :: rest => afterLastUp rest

/-- One-line replacement step of replaceUpGreedy. -/
def replaceUpLine (line : List Char) : Option (List Char) :=
  (afterLastUp line).map (fun r => 'u' :: 'p' :: r)

/-- Replace in the first matching line only, as String.replace does for
a non-global pattern. -/
def replaceUpLines : List String → List String
  | [] => []
  | l :: rest =>
      match replaceUpLine l.data with
      | some r => String.mk r :: rest
      | none => l :: replaceUpLines rest

/-- Model of s.replace with the greedy dot-star-up pattern and
replacement up: in the first line containing the run up, everything
through its last occurrence in that line collapses to up (the dot does
not cross newlines); without an occurrence the string is unchanged. -/
def replaceUpGreedy (s : String) : String :=
  joinWithChar '\n' (replaceUpLines (jsSplitChar s '\n'))

/-- Parsed remote system facts. -/
structure SysInfo where
  hostname : String
  uptime : String
  disk : String
deriving DecidableEq

/-- getAnvilSystem from src/routes/fleet.js, as a function of what the
ssh child process printed (none models the command failing; the empty
string is falsy and also yields null). -/
def getAnvilSystem (sshRaw : Option String) : Option SysInfo :=
  match sshRaw with
  | none => none
  | some info =>
      if info = "" then none
      else some
        { hostname := labelValue ("HOSTNAME=") info
          uptime := replaceUpGreedy (labelValue ("UPTIME=") info)
          disk := labelValue ("DISK=") info }

/-! ## Fleet snapshot builder (src/routes/fleet.js, GET /api/fleet) -/

/-- One model row of a parsed Ollama tags response.  The nested details
object of the JS payload is flattened into three optional fields. -/
structure OllamaModelRaw where
  name : String
  size : Option Nat
  family : Option String
  parameterSize : Option String
  quantization : Option String
deriving DecidableEq

/-- Parsed shape of an Ollama tags response body. -/
structure OllamaTags where
  models : Option (List OllamaModelRaw)
deriving DecidableEq

/-- Size field rendering: a truthy byte count becomes a one-decimal
gigabyte label, anything else the literal unknown. -/
def sizeLabel (size : Option Nat) : String :=
  match size with
  | some n => if n = 0 then "unknown" else toFixed1 ((n : ℚ) / 1073741824) ++ "GB"
  | none => "unknown"

/-- Mapped Anvil model row of the snapshot. -/
structure ModelEntry where
  name : String
  size : String
  family : String
  parameterSize : String
  quantization : String
deriving DecidableEq

/-- Mapped local model row of the snapshot. -/
structure LocalModel where
  name : String
  size : String
  family : String
deriving DecidableEq

/-- Anvil model row mapping of the handler. -/
def toModelEntry (m : OllamaModelRaw) : ModelEntry :=
  { name := m.name, size := sizeLabel m.size, family := jsStrOr m.family ("unknown"),
    parameterSize := jsStrOr m.parameterSize ("unknown"),
    quantization := jsStrOr m.quantization ("unknown") }

/-- Local model row mapping of the handler. -/
def toLocalModel (m : OllamaModelRaw) : LocalModel :=
  { name := m.name, size := sizeLabel m.size, family := jsStrOr m.family ("unknown") }

/-- The models array of a probe result, when the probe parsed a tags
payload carrying one. -/
def probeModels (r : ProbeResult OllamaTags) : Option (List OllamaModelRaw) :=
  match r.data with
  | some (ProbeData.parsed t) => t.models
  | _ => none

/-- Anvil model list: populated only when the probe succeeded and its
parsed data carries a models array, as in the source conditional. -/
def anvilModelsOf (r : ProbeResult OllamaTags) : List ModelEntry :=
  if r.ok then
    match probeModels r with
    | some ms => ms.map toModelEntry
    | none => []
  else []

/-- Local model list, same guard as anvilModelsOf. -/
def localModelsOf (r : ProbeResult OllamaTags) : List LocalModel :=
  if r.ok then
    match probeModels r with
    | some ms => ms.map toLocalModel
    | none => []
  else []

/-- The reduce over model sizes: by JS precedence each step is
(sum + parseFloat(size)) || 0, so an unparsable size collapses the
accumulator to 0; rendered with one decimal. -/
def totalSizeGB (models : List ModelEntry) : String :=
  toFixed1 (models.foldl (fun sum m =>
    match jsParseFloat m.size with
    | some p => sum + p
    | none => 0) 0)

/-- Truthiness of a nullable string, as the source tests run() results. -/
def jsTruthyStr (o : Option String) : Bool :=
  match o with
  | some s => s != ""
  | none => false

/-- Row of the litellm models listing. -/
structure LitellmModelRow where
  id : String
deriving DecidableEq

/-- Parsed body of the authorized litellm models fetch. -/
structure LitellmResp where
  data : Option (List LitellmModelRow)
deriving DecidableEq

/-- Outcome of the inner authorized litellm fetch: outer none models a
connection error or timeout, inner none a body that failed to parse;
every failure path resolves to the empty list, as in the source. -/
def litellmIdsOf (fetch : Option (Option LitellmResp)) : List String :=
  match fetch with
  | some (some resp) => (resp.data.getD []).map (fun m => m.id)
  | _ => []

/-- Parsed shape of the tailscale status self node. -/
structure TsSelf where
  hostName : Option String
  tailscaleIPs : List String
  os : Option String
deriving DecidableEq

/-- Parsed shape of one tailscale peer. -/
structure TsPeer where
  hostName : Option String
  tailscaleIPs : List String
  online : Option Bool
  os : Option String
  lastSeen : Option String
deriving DecidableEq

/-- Parsed shape of the tailscale status blob; peers carries the peer
map values in object order. -/
structure TsStatus where
  self : Option TsSelf
  peers : List TsPeer
deriving DecidableEq

/-- One device row of the snapshot mesh list. -/
structure TsDevice where
  name : Option String
  ip : Option String
  online : Option Bool
  os : Option String
  lastSeen : Option String := none
deriving DecidableEq

/-- Device list of the snapshot: empty when the status command failed or
its output was falsy or failed to parse (the catch swallows the parse
error); otherwise the self row first, then the peers in order. -/
def tsDevicesOf (parseTs : String → Option TsStatus) (tsRaw : Option String) : List TsDevice :=
  if jsTruthyStr tsRaw then
    match parseTs (tsRaw.getD "") with
    | some ts =>
        { name := some (jsStrOr (match ts.self with | some s => s.hostName | none => none) ("self"))
          ip := match ts.self with | some s => s.tailscaleIPs.head? | none => none
          online := some true
          os := match ts.self with | some s => s.os | none => none
          lastSeen := none } ::
        ts.peers.map (fun p =>
          { name := p.hostName, ip := p.tailscaleIPs.head?, online := p.online,
            os := p.os, lastSeen := p.lastSeen })
    | none => []
  else []

/-- Service status entry; latencyMs is only present on the litellm row. -/
structure SvcStat where
  port : Nat
  status : String
  latencyMs : Option Nat := none
deriving DecidableEq

/-- The services block of the hearth sub-tree. -/
structure HearthServices where
  dashboard : SvcStat
  api : SvcStat
  promptBrowser : SvcStat
  contactVerify : SvcStat
  litellm : SvcStat
  ollama : SvcStat
deriving DecidableEq

/-- Hearth hardware spec constants. -/
structure HearthSpecs where
  ram : String
  cpu : String
  gpu : String
  storage : String
deriving DecidableEq

/-- Anvil hardware spec constants. -/
structure AnvilSpecs where
  ram : String
  cpu : String
  gpu : String
  storage : String
  bandwidth : String
deriving DecidableEq

/-- NAS hardware spec constants. -/
structure NasSpecs where
  ram : String
  storage : String
  arch : String
deriving DecidableEq

/-- Address record with a LAN address only. -/
structure IpLan where
  lan : String
deriving DecidableEq

/-- Address record with LAN and overlay addresses. -/
structure IpLanTs where
  lan : String
  tailscale : String
deriving DecidableEq

/-- Local system facts of getHearthSystem, as a function of the local
command and os module readings. -/
structure HearthSystem where
  hostname : String
  uptime : String
  disk : String
  cpus : Nat
  totalMemGB : Int
  freeMemGB : ℚ
  loadAvg : List ℚ
deriving DecidableEq

/-- Hearth machine sub-tree. -/
structure HearthTree where
  name : String
  model : String
  specs : HearthSpecs
  role : String
  ip : IpLan
  system : HearthSystem
  services : HearthServices
  models : List LocalModel
deriving DecidableEq

/-- Reachability edge of the connectivity block. -/
structure ProbeEdge where
  reachable : Bool
  latencyMs : Nat
deriving DecidableEq

/-- Anvil connectivity block. -/
structure AnvilConnectivity where
  lan : ProbeEdge
  tailscale : ProbeEdge
deriving DecidableEq

/-- Anvil ollama block. -/
structure AnvilOllamaTree where
  status : String
  models : List ModelEntry
  totalSizeGB : String
deriving DecidableEq

/-- Anvil machine sub-tree. -/
structure AnvilTree where
  name : String
  model : String
  specs : AnvilSpecs
  role : String
  ip : IpLanTs
  system : Option SysInfo
  connectivity : AnvilConnectivity
  ollama : AnvilOllamaTree
deriving DecidableEq

/-- NAS machine sub-tree (constant). -/
structure NasTree where
  name : String
  role : String
  ip : IpLanTs
  specs : NasSpecs
  services : List String
deriving DecidableEq

/-- One mobile device entry (constant). -/
structure MobileDevice where
  name : String
  role : String
  capabilities : List String
deriving DecidableEq

/-- Mobile sub-tree (constant). -/
structure MobileTree where
  ipad : MobileDevice
  iphone : MobileDevice
deriving DecidableEq

/-- The machines block of the snapshot. -/
structure MachinesTree where
  hearth : HearthTree
  anvil : AnvilTree
  nas : NasTree
  mobile : MobileTree
deriving DecidableEq

/-- The litellm routing block. -/
structure LitellmRouting where
  status : String
  port : Nat
  models : List String
  description : String
deriving DecidableEq

/-- The routing block of the snapshot. -/
structure RoutingTree where
  litellm : LitellmRouting
  flowDescription : List String
deriving DecidableEq

/-- The tailscale block of the snapshot. -/
structure TailscaleTree where
  devices : List TsDevice
  meshSize : Nat
deriving DecidableEq

/-- The composed fleet snapshot.  Every key of the JS object literal is
a field here, so every top-level and nested key is present in every
snapshot by construction. -/
structure Fleet where
  timestamp : String
  machines : MachinesTree
  routing : RoutingTree
  tailscale : TailscaleTree
deriving DecidableEq

/-- Everything the GET /api/fleet handler reads from outside: the clock,
the four probe outcomes, the ssh output, the os module readings, the
local command outputs, the inner litellm fetch outcome and the
tailscale status output. -/
structure FleetEnv where
  now : String
  anvilOllama : ProbeResult OllamaTags
  anvilOllamaTs : ProbeResult OllamaTags
  litellm : ProbeResult OllamaTags
  localOllama : ProbeResult OllamaTags
  sshRaw : Option String
  hostname : String
  uptimeRaw : Option String
  diskRaw : Option String
  cpus : Nat
  totalmem : Nat
  freemem : Nat
  loadAvg : List ℚ
  lsof3000 : Option String
  lsof3002 : Option String
  lsof3003 : Option String
  litellmFetch : Option (Option LitellmResp)
  tsRaw : Option String
deriving DecidableEq

/-- getHearthSystem from src/routes/fleet.js. -/
def hearthSystemOf (e : FleetEnv) : HearthSystem :=
  { hostname := e.hostname
    uptime := jsStrOr (e.uptimeRaw.map replaceUpGreedy) ("unknown")
    disk := jsStrOr e.diskRaw ("unknown")
    cpus := e.cpus
    totalMemGB := jsRound ((e.totalmem : ℚ) / 1073741824)
    freeMemGB := ((jsRound ((e.freemem : ℚ) / 1073741824 * 10) : ℚ)) / 10
    loadAvg := e.loadAvg }

/-- Hearth sub-tree of the snapshot. -/
def hearthOf (e : FleetEnv) : HearthTree :=
  { name := "Hearth"
    model := "Mac Studio M2 Max"
    specs := { ram := "64GB", cpu := "12-core", gpu := "30-core", storage := "2TB" }
    role := "Orchestration hub — services, agents, routing"
    ip := { lan := "192.168.1.113" }
    system := hearthSystemOf e
    services :=
      { dashboard := { port := 3000, status := if jsTruthyStr e.lsof3000 then "up" else "down" }
        api := { port := 3001, status := "up" }
        promptBrowser := { port := 3002, status := if jsTruthyStr e.lsof3002 then "up" else "down" }
        contactVerify := { port := 3003, status := if jsTruthyStr e.lsof3003 then "up" else "down" }
        litellm := { port := 4000, status := if e.litellm.ok then "up" else "down",
                     latencyMs := some e.litellm.latencyMs }
        ollama := { port := 11434, status := if e.localOllama.ok then "up" else "down" } }
    models := localModelsOf e.localOllama }

/-- Anvil sub-tree of the snapshot: the ssh inspection is gated on the
cheap LAN probe having succeeded. -/
def anvilOf (e : FleetEnv) : AnvilTree :=
  let models := anvilModelsOf e.anvilOllama
  { name := "Anvil"
    model := "Mac Studio M3 Ultra"
    specs := { ram := "96GB", cpu := "28-core", gpu := "60-core", storage := "4TB",
               bandwidth := "819 GB/s" }
    role := "Inference workhorse — local LLM serving"
    ip := { lan := "192.168.1.105", tailscale := "100.116.17.120" }
    system := if e.anvilOllama.ok then getAnvilSystem e.sshRaw else none
    connectivity :=
      { lan := { reachable := e.anvilOllama.ok, latencyMs := e.anvilOllama.latencyMs }
        tailscale := { reachable := e.anvilOllamaTs.ok, latencyMs := e.anvilOllamaTs.latencyMs } }
    ollama :=
      { status := if e.anvilOllama.ok then "up" else "down"
        models := models
        totalSizeGB := totalSizeGB models } }

/-- NAS sub-tree (constant). -/
def nasOf : NasTree :=
  { name := "Synology NAS (DS223j)"
    role := "Storage, backups, web hosting"
    ip := { lan := "192.168.1.57", tailscale := "100.93.227.12" }
    specs := { ram := "1GB", storage := "16TB", arch := "ARM64" }
    services := ["Time Machine", "Caddy (web)", "cloudflared (tunnel)"] }

/-- Mobile sub-tree (constant). -/
def mobileOf : MobileTree :=
  { ipad :=
      { name := "iPad Pro 13\" M4"
        role := "Mobile dashboard viewer, Obsidian sync, Shortcuts automation"
        capabilities :=
          ["View dashboard at https://hearth.local:3000 (via Tailscale)",
           "Obsidian vault sync (iCloud)",
           "Shortcuts → LiteLLM API for quick AI queries",
           "VNC to Anvil for monitoring"] }
    iphone :=
      { name := "iPhone Pro Max 17"
        role := "Notifications, quick queries, voice capture"
        capabilities :=
          ["Apple Voice Memos → MemoryAtlas pipeline",
           "Shortcuts → LiteLLM API queries",
           "Push notifications from services (planned)",
           "Tailscale mesh access to all machines"] } }

/-- Routing sub-tree of the snapshot: the authorized models fetch only
happens when the readiness probe succeeded. -/
def routingOf (e : FleetEnv) : RoutingTree :=
  { litellm :=
      { status := if e.litellm.ok then "up" else "down"
        port := 4000
        models := if e.litellm.ok then litellmIdsOf e.litellmFetch else []
        description := "Universal AI gateway — routes to local, Anvil, and cloud models" }
    flowDescription :=
      ["Claude Code (Hearth) → LiteLLM :4000 → Anvil Ollama :11434 (inference)",
       "Claude Code (Hearth) → Direct HTTP → Anvil Ollama :11434 (low latency)",
       "iPad/iPhone → Tailscale → Hearth :4000 → Anvil (via LiteLLM)",
       "iPad/iPhone → Tailscale → Hearth :3000 (dashboard)",
       "Any device → Tailscale → Anvil VNC (Screen Sharing)"] }

/-- GET /api/fleet handler from src/routes/fleet.js: status and composed
snapshot as a function of the environment readings.  parseTs models the
JSON.parse of the tailscale status blob (none = the parse threw). -/
def fleetGet (parseTs : String → Option TsStatus) (e : FleetEnv) : Nat × Fleet :=
  let devices := tsDevicesOf parseTs e.tsRaw
  (200,
    { timestamp := e.now
      machines := { hearth := hearthOf e, anvil := anvilOf e, nas := nasOf, mobile := mobileOf }
      routing := routingOf e
      tailscale := { devices := devices, meshSize := devices.length } })

/-- Concrete environment with every remote source down, used by the
witnesses. -/
def probeDown : ProbeResult OllamaTags :=
  { ok := false, latencyMs := 3000, timeout := true }

/-- Concrete degraded environment for the witnesses. -/
def envA : FleetEnv :=
  { now := "2026-10-12T00:00:00Z"
    anvilOllama := probeDown
    anvilOllamaTs := probeDown
    litellm := probeDown
    localOllama := probeDown
    sshRaw := none
    hostname := "hearth"
    uptimeRaw := none
    diskRaw := none
    cpus := 12
    totalmem := 68719476736
    freemem := 1073741824
    loadAvg := []
    lsof3000 := none
    lsof3002 := none
    lsof3003 := none
    litellmFetch := none
    tsRaw := none }

/-- Concrete tailscale parse oracle for the witnesses. -/
def noTs : String → Option TsStatus := fun _ => none

/-- Concrete protocol row for the fusion example of the spec. -/
def watcherRow : ProtocolAgent :=
  { id := "A1", name := "Watcher", model := "sonnet", interface := "iTerm",
    status := "Active", focus := "System monitoring" }

/-- Concrete recently active session record whose agent name contains the
protocol row name as a substring. -/
def watcherSession : SessionRecord :=
  { logFile := "w.md", agentName := "Watcher-session", status := "Active",
    focus := "monitoring", model := "Sonnet", lastModified := "2026-01-01T00:00:00Z",
    ageMs := 120000, isRecentlyActive := true }

/-- Concrete asset table with 201 rows, used to exhibit an unbounded
page. -/
def bigTable : List AssetRow :=
  (List.range 201).map (fun i => { id := i, sourceType := "voice_memo", recordedAt := 0 })

/-! ## Theorems -/

/-- Claim C2: probe never raises — in the embedding it is a total
function, every socket outcome terminating in a ProbeResult value; the
timeout outcome yields ok false, latencyMs equal to the configured
timeout and timeout true; an immediate connection error yields ok false
with the elapsed latency and no timeout marker (the field stays at its
absent default false). -/
theorem probe_total_and_failure_shapes {J : Type} (parseJson : String → Option J) (timeoutMs : Nat) :
    (∀ o : NetOutcome, ∃ r : ProbeResult J, probe parseJson timeoutMs o = r) ∧
    probe parseJson timeoutMs NetOutcome.timedOut =
      { ok := false, latencyMs := timeoutMs, status := none, data := none, timeout := true } ∧
    (∀ elapsedMs : Nat, probe parseJson timeoutMs (NetOutcome.connError elapsedMs) =
      { ok := false, latencyMs := elapsedMs, status := none, data := none, timeout := false }) :=
  ⟨fun o => ⟨probe parseJson timeoutMs o, rfl⟩, rfl, fun _ => rfl⟩

/-- Claim C4: when a response arrives, a JSON parse failure never turns
the probe into a failure: the result still has ok true, and on parse
failure it carries the raw body truncated to 500 characters. -/
theorem probe_parse_failure_not_failure {J : Type} (parseJson : String → Option J)
    (timeoutMs statusCode elapsedMs : Nat) (body : String) :
    (probe parseJson timeoutMs (NetOutcome.response statusCode body elapsedMs)).ok = true ∧
    (parseJson body = none →
      probe parseJson timeoutMs (NetOutcome.response statusCode body elapsedMs) =
        { ok := true, latencyMs := elapsedMs, status := some statusCode,
          data := some (ProbeData.raw (jsTake body 500)), timeout := false }) := by
  constructor
  · cases h : parseJson body <;> simp [probe, h]
  · intro h
    simp [probe, h]

/-- Concrete instance of probe_parse_failure_not_failure at a parse
oracle that always fails. -/
theorem probe_parse_failure_not_failure_witness :
    ((fun _ : String => (none : Option Nat)) ("hello")) = none ∧
    probe (J := Nat) (fun _ => none) 3000 (NetOutcome.response 200 ("hello") 12) =
      { ok := true, latencyMs := 12, status := some 200,
        data := some (ProbeData.raw (jsTake ("hello") 500)), timeout := false } :=
  ⟨rfl, (probe_parse_failure_not_failure (J := Nat) (fun _ => none) 3000 200 12 ("hello")).2 rfl⟩

/-- Claim C6: on both vault endpoints, a dir or path query parameter
whose decoded value contains the parent-traversal token yields status
400 with an error body; the parameter value is the form-decoded one, so
the guard applies however the request encoded it. -/
theorem vault_traversal_rejected (listNotes : String → List NoteInfo)
    (readNote : String → Option String) (url : String) :
    (jsIncludes (jsStrOr (searchParamGet url ("dir")) ("")) ("..") = true →
      vaultNotesGet listNotes url = (400, VaultBody.err ("Invalid directory"))) ∧
    (jsIncludes (jsStrOr (searchParamGet url ("path")) ("")) ("..") = true →
      vaultNoteGet readNote url = (400, VaultBody.err ("Invalid path"))) := by
  constructor
  · intro h
    simp [vaultNotesGet, h]
  · intro h
    simp [vaultNoteGet, h]

/-- Concrete instance of vault_traversal_rejected at percent-encoded
traversal parameters. -/
theorem vault_traversal_rejected_witness :
    jsIncludes (jsStrOr (searchParamGet ("/api/vault/notes?dir=%2E%2E%2Fsecret") ("dir")) ("")) ("..") = true ∧
    vaultNotesGet (fun _ => []) ("/api/vault/notes?dir=%2E%2E%2Fsecret") =
      (400, VaultBody.err ("Invalid directory")) ∧
    jsIncludes (jsStrOr (searchParamGet ("/api/vault/note?path=..%2Fa.md") ("path")) ("")) ("..") = true ∧
    vaultNoteGet (fun _ => some ("x")) ("/api/vault/note?path=..%2Fa.md") =
      (400, VaultBody.err ("Invalid path")) :=
  ⟨by decide,
   (vault_traversal_rejected (fun _ => []) (fun _ => some ("x"))
     ("/api/vault/notes?dir=%2E%2E%2Fsecret")).1 (by decide),
   by decide,
   (vault_traversal_rejected (fun _ => []) (fun _ => some ("x"))
     ("/api/vault/note?path=..%2Fa.md")).2 (by decide)⟩

/-- Two disjoint filters never together exceed the length. -/
theorem filter_disjoint_length_le {α : Type} (p q : α → Bool) (l : List α)
    (h : ∀ a, p a = true → q a = false) :
    (l.filter p).length + (l.filter q).length ≤ l.length := by
  induction l with
  | nil => simp
  | cons a t ih =>
      by_cases hp : p a = true
      · have hq := h a hp
        simp only [List.filter, hp, hq, List.length_cons]
        omega
      · cases hq : q a <;>
          simp only [List.filter, hp, hq, Bool.false_eq_true, List.length_cons] <;>
          [skip; skip] <;> omega

/-- Claim C8: fusion is a pure function of its inputs, so two runs over
identical inputs produce identical mappings and summaries; and since no
entry has status both Active and Parked, active + parked never exceeds
total. -/
theorem agentHealth_idempotent_and_counts (protocolAgents : List ProtocolAgent)
    (processAgents : List ProcessAgent) (sessionAgents : List SessionRecord) (now : String) :
    getAgentHealth protocolAgents processAgents sessionAgents now =
      getAgentHealth protocolAgents processAgents sessionAgents now ∧
    (getAgentHealth protocolAgents processAgents sessionAgents now).summary.active +
        (getAgentHealth protocolAgents processAgents sessionAgents now).summary.parked ≤
      (getAgentHealth protocolAgents processAgents sessionAgents now).summary.total := by
  refine ⟨rfl, ?_⟩
  apply filter_disjoint_length_le
  intro a ha
  have h1 : a.status = "Active" := by simpa using ha
  simp [h1]

/-- Enrichment lands on the first matching entry, in insertion order. -/
theorem enrichFirst_of_first_match (s : SessionRecord) (e : AgentEntry)
    (pre rest : List AgentEntry)
    (hpre : ∀ x ∈ pre, entryMatches x s = false) (he : entryMatches e s = true) :
    enrichFirst (pre ++ e :: rest) s = some (pre ++ enrich e s :: rest) := by
  induction pre with
  | nil => simp [enrichFirst, he]
  | cons a t ih =>
      have ha : entryMatches a s = false := hpre a (by simp)
      have ht : ∀ x ∈ t, entryMatches x s = false := fun x hx => hpre x (by simp [hx])
      simp [enrichFirst, ha, ih ht]

/-- With no matching entry the enrichment pass reports none. -/
theorem enrichFirst_of_no_match (s : SessionRecord) (m : List AgentEntry)
    (h : ∀ x ∈ m, entryMatches x s = false) :
    enrichFirst m s = none := by
  induction m with
  | nil => rfl
  | cons a t ih =>
      simp [enrichFirst, h a (by simp), ih (fun x hx => h x (by simp [hx]))]

/-- Setting an absent key appends at the end of the map. -/
theorem healthSet_of_no_key (m : List AgentEntry) (k : String) (v : AgentEntry)
    (h : ∀ x ∈ m, (x.name == k) = false) :
    healthSet m k v = m ++ [v] := by
  induction m with
  | nil => rfl
  | cons a t ih =>
      simp [healthSet, h a (by simp), ih (fun x hx => h x (by simp [hx]))]

/-- Claim C1: fusion seeds the map from the protocol rows in row order
and folds the recently active session records over it in order; each
step enriches the first entry, in insertion order, whose key equals the
record agent name or is contained in it as a substring — lastActivity,
session-log reference and ageMs are set, the source is untouched — and
with no match appends a fresh entry keyed by the agent name with source
session-log and null protocolStatus.  On the Watcher example the seeded
entry is enriched and the map keeps size one. -/
theorem fusion_enrich_or_insert (s : SessionRecord) :
    (∀ (protocolAgents : List ProtocolAgent) (processAgents : List ProcessAgent)
        (sessionAgents : List SessionRecord) (now : String),
      (getAgentHealth protocolAgents processAgents sessionAgents now).agents =
        (sessionAgents.filter (fun t => t.isRecentlyActive)).foldl fuseStep
          (seedHealth protocolAgents)) ∧
    (∀ pre e rest, (∀ x ∈ pre, entryMatches x s = false) → entryMatches e s = true →
      fuseStep (pre ++ e :: rest) s = pre ++ enrich e s :: rest ∧
      (enrich e s).source = e.source ∧
      (enrich e s).lastActivity = some s.lastModified ∧
      (enrich e s).sessionLog = some s.logFile ∧
      (enrich e s).ageMs = some s.ageMs ∧
      (pre ++ enrich e s :: rest).length = (pre ++ e :: rest).length) ∧
    (∀ m : List AgentEntry, (∀ x ∈ m, entryMatches x s = false) →
      fuseStep m s = m ++ [sessionEntry s] ∧
      (sessionEntry s).name = s.agentName ∧
      (sessionEntry s).source = "session-log" ∧
      (sessionEntry s).protocolStatus = none) ∧
    ((getAgentHealth [watcherRow] [] [watcherSession] ("t")).agents =
        [enrich (protocolEntry watcherRow) watcherSession] ∧
      (enrich (protocolEntry watcherRow) watcherSession).source = "protocol" ∧
      (getAgentHealth [watcherRow] [] [watcherSession] ("t")).summary.total = 1) := by
  refine ⟨fun _ _ _ _ => rfl, ?_, ?_, by decide, by decide, by decide⟩
  · intro pre e rest hpre he
    refine ⟨?_, rfl, rfl, rfl, rfl, by simp⟩
    simp [fuseStep, enrichFirst_of_first_match s e pre rest hpre he]
  · intro m h
    have hk : ∀ x ∈ m, (x.name == s.agentName) = false := by
      intro x hx
      have := h x hx
      simp only [entryMatches, Bool.or_eq_false_iff] at this
      exact this.1
    refine ⟨?_, rfl, rfl, rfl⟩
    simp [fuseStep, enrichFirst_of_no_match s m h, healthSet_of_no_key m s.agentName _ hk]

/-- Concrete instance of fusion_enrich_or_insert: the Watcher session
enriches the seeded Watcher entry (substring match) and, against an
empty map, inserts a fresh session-log entry. -/
theorem fusion_enrich_or_insert_witness :
    entryMatches (protocolEntry watcherRow) watcherSession = true ∧
    fuseStep ([] ++ protocolEntry watcherRow :: []) watcherSession =
      [] ++ enrich (protocolEntry watcherRow) watcherSession :: [] ∧
    fuseStep [] watcherSession = [] ++ [sessionEntry watcherSession] :=
  ⟨by decide,
   ((fusion_enrich_or_insert watcherSession).2.1 [] (protocolEntry watcherRow) []
      (fun x hx => nomatch hx) (by decide)).1,
   ((fusion_enrich_or_insert watcherSession).2.2.1 [] (fun x hx => nomatch hx)).1⟩

set_option maxRecDepth 100000 in
/-- Claim C10 counterexample: a requested limit of -1 passes through the
min unchanged and disables the bound, so the page carries all 201 rows
of bigTable — more than 200. -/
theorem atlas_unbounded_page_counterexample :
    (atlasAssetsGet (some bigTable) ("/api/atlas/assets?limit=-1")).map
        (fun r => match r.2 with
          | AtlasBody.page p => p.assets.length
          | AtlasBody.err _ => 0) = Except.ok 201 ∧ 200 < 201 :=
  ⟨rfl, by decide⟩

/-- Claim C10 amended: when the limit parameter is absent or parses to a
nonnegative integer (and the offset parses), the effective limit is the
minimum of the requested value and 200 — 50 by default — and the page
never carries more than that many rows, in particular never more than
200; a negative parsed limit disables the bound. -/
theorem atlas_limit_clamped (table : List AssetRow) (url : String) (l o : Int)
    (hl : jsParseInt (jsStrOr (searchParamGet url ("limit")) ("50")) = some l)
    (ho : jsParseInt (jsStrOr (searchParamGet url ("offset")) ("0")) = some o)
    (hnn : 0 ≤ l) :
    ∃ p : AtlasAssets,
      atlasAssetsGet (some table) url = Except.ok (200, AtlasBody.page p) ∧
      p.limit = min l 200 ∧
      p.assets.length ≤ (min l 200).toNat ∧ p.assets.length ≤ 200 := by
  have hmin : ¬ (min l 200 < (0 : Int)) := by omega
  have hbound : (min l 200).toNat ≤ 200 := by omega
  simp only [atlasAssetsGet, hl, ho]
  refine ⟨_, rfl, rfl, ?_, ?_⟩
  · simp only [atlasQuery, sqliteLimitOffset]
    rw [if_neg hmin]
    exact List.length_take_le _ _
  · refine le_trans ?_ hbound
    simp only [atlasQuery, sqliteLimitOffset]
    rw [if_neg hmin]
    exact List.length_take_le _ _

/-- Concrete instance of atlas_limit_clamped at a request with no
parameters: the default limit 50 applies. -/
theorem atlas_limit_clamped_witness :
    jsParseInt (jsStrOr (searchParamGet ("/api/atlas/assets") ("limit")) ("50")) = some 50 ∧
    jsParseInt (jsStrOr (searchParamGet ("/api/atlas/assets") ("offset")) ("0")) = some 0 ∧
    (0 : Int) ≤ 50 ∧
    (∃ p : AtlasAssets,
      atlasAssetsGet (some []) ("/api/atlas/assets") = Except.ok (200, AtlasBody.page p) ∧
      p.limit = min 50 200 ∧
      p.assets.length ≤ ((min (50 : Int) 200)).toNat ∧ p.assets.length ≤ 200) :=
  ⟨by decide, by decide, by decide,
   atlas_limit_clamped [] ("/api/atlas/assets") 50 0 (by decide) (by decide) (by decide)⟩

/-- The segment loop succeeds exactly when every pattern segment is a
placeholder or equals its path segment, and then returns the spec-side
parameters. -/
theorem matchSegs_eq (pp : List String) : ∀ (xs : List String) (acc : List (String × String)),
    pp.length = xs.length →
    matchSegs pp xs acc =
      (if ((pp.zip xs).all (fun q => segOk q.1 q.2)) = true
        then some (specParamsGo pp xs acc) else none) := by
  induction pp with
  | nil =>
      intro xs acc h
      cases xs with
      | nil => simp [matchSegs, specParamsGo]
      | cons x xt => simp at h
  | cons p ps ih =>
      intro xs acc h
      cases xs with
      | nil => simp at h
      | cons x xt =>
          have hl : ps.length = xt.length := by simpa using h
          by_cases hp : strStartsWith p (":") = true
          · simp [matchSegs, specParamsGo, segOk, hp, ih xt _ hl]
            rw [hp, Bool.true_or, Bool.true_and]
          · have hp2 : strStartsWith p (":") = false := by
              cases hq : strStartsWith p (":") with
              | true => exact absurd hq hp
              | false => rfl
            by_cases hx : (p == x) = true
            · simp [matchSegs, specParamsGo, segOk, hp2, hx, ih xt _ hl]
              rw [hp2, hx, Bool.false_or, Bool.true_and]
            · have hx2 : (p == x) = false := by
                cases hq : (p == x) with
                | true => exact absurd hq hx
                | false => rfl
              simp [matchSegs, specParamsGo, segOk, hp2, hx2]

/-- matchPattern in terms of the spec-side admissibility condition. -/
theorem matchPattern_eq (pattern pathname : String) :
    matchPattern pattern pathname =
      (if ((jsSplitChar pattern '/').length == (jsSplitChar pathname '/').length &&
           ((jsSplitChar pattern '/').zip (jsSplitChar pathname '/')).all
             (fun q => segOk q.1 q.2)) = true
        then some (specParams pattern pathname) else none) := by
  simp only [matchPattern, specParams]
  by_cases h : (jsSplitChar pattern '/').length = (jsSplitChar pathname '/').length
  · rw [if_pos h, matchSegs_eq _ _ _ h]
    by_cases h2 : (((jsSplitChar pattern '/').zip (jsSplitChar pathname '/')).all
        (fun q => segOk q.1 q.2)) = true
    · simp [h, h2]
    · simp [h, h2]
  · rw [if_neg h]
    have hb : ((jsSplitChar pattern '/').length == (jsSplitChar pathname '/').length) = false := by
      simpa using h
    simp [hb]

/-- The route scan returns exactly the earliest spec-admissible route,
paired with the spec-side parameters of its pattern. -/
theorem routerFind_eq (routes : List Route) (method pathname : String) :
    routerFind routes method pathname =
      (routes.find? (specRouteMatches method pathname)).map
        (fun r => (r.handler, specParams r.pattern pathname)) := by
  induction routes with
  | nil => rfl
  | cons r rest ih =>
      simp only [routerFind]
      by_cases hm : (r.method == method) = true
      · rw [if_pos hm, matchPattern_eq]
        by_cases hc : (((jsSplitChar r.pattern '/').length == (jsSplitChar pathname '/').length &&
            ((jsSplitChar r.pattern '/').zip (jsSplitChar pathname '/')).all
              (fun q => segOk q.1 q.2)) = true)
        · rw [if_pos hc]
          have hs : specRouteMatches method pathname r = true := by
            simp only [specRouteMatches]
            simp only [Bool.and_eq_true] at hc ⊢
            exact ⟨hm, hc⟩
          rw [List.find?_cons_of_pos _ hs]
          rfl
        · rw [if_neg hc]
          have hs : specRouteMatches method pathname r = false := by
            simp only [specRouteMatches]
            cases hq : ((jsSplitChar r.pattern '/').length == (jsSplitChar pathname '/').length &&
                ((jsSplitChar r.pattern '/').zip (jsSplitChar pathname '/')).all
                  (fun q => segOk q.1 q.2)) with
            | true => exact absurd hq hc
            | false => simp
          rw [List.find?_cons_of_neg _ (by simp [hs]), ih]
      · have hm2 : (r.method == method) = false := by
          cases hq : (r.method == method) with
          | true => exact absurd hq hm
          | false => rfl
        rw [if_neg (by simp [hm2]), ih]
        have hs : specRouteMatches method pathname r = false := by
          simp [specRouteMatches, hm2]
        rw [List.find?_cons_of_neg _ (by simp [hs])]

/-- Claim C3: Router.match returns, for any route table and request, the
earliest registered route whose method equals the request method, whose
pattern has as many slash-separated segments as the request pathname and
whose literal segments all equal the corresponding path segments, paired
with the params binding each named placeholder to the URI-decoded path
segment; it returns non-null exactly when such a route exists. -/
theorem routerMatch_characterization (routes : List Route) (method url : String) :
    routerMatch routes method url =
      ((routes.find? (specRouteMatches method (urlPathname url))).map
        (fun r => (r.handler, specParams r.pattern (urlPathname url)))) ∧
    ((routerMatch routes method url).isSome = true ↔
      ∃ r ∈ routes, specRouteMatches method (urlPathname url) r = true) := by
  have h := routerFind_eq routes method (urlPathname url)
  constructor
  · exact h
  · rw [routerMatch, h]
    simp [List.find?_isSome]

/-- Concrete instance of routerMatch_characterization: a placeholder
route matches and binds the decoded segment, and the existence direction
of the characterization is exercised. -/
theorem routerMatch_characterization_witness :
    (routerMatch [{ method := "GET", pattern := "/api/a/:id", handler := 7 }] ("GET")
        ("/api/a/x%20y?q=1")).isSome = true ∧
    routerMatch [{ method := "GET", pattern := "/api/a/:id", handler := 7 }] ("GET")
        ("/api/a/x%20y?q=1") = some (7, [("id", "x y")]) :=
  ⟨(routerMatch_characterization
      [{ method := "GET", pattern := "/api/a/:id", handler := 7 }] ("GET")
      ("/api/a/x%20y?q=1")).2.mpr
    ⟨{ method := "GET", pattern := "/api/a/:id", handler := 7 }, by decide, by decide⟩,
   by
    rw [(routerMatch_characterization
      [{ method := "GET", pattern := "/api/a/:id", handler := 7 }] ("GET")
      ("/api/a/x%20y?q=1")).1]
    decide⟩

/-- Claim C5: the fleet handler always answers 200; a failed primary
probe degrades the anvil sub-tree to explicit markers (system null,
reachable false, ollama down with an empty model list); a missing
tailscale reading degrades the mesh to an empty device list; and the
anvil-related inputs (both anvil probes and the ssh output) do not
influence any other sub-tree, so a failure there degrades only the anvil
sub-tree.  Every key of the snapshot is a field of the Fleet structure,
hence present in every response by construction. -/
theorem fleet_snapshot_degradation (parseTs : String → Option TsStatus) (e : FleetEnv) :
    (fleetGet parseTs e).1 = 200 ∧
    (e.anvilOllama.ok = false →
      (fleetGet parseTs e).2.machines.anvil.system = none ∧
      (fleetGet parseTs e).2.machines.anvil.connectivity.lan.reachable = false ∧
      (fleetGet parseTs e).2.machines.anvil.ollama.status = "down" ∧
      (fleetGet parseTs e).2.machines.anvil.ollama.models = []) ∧
    (e.tsRaw = none →
      (fleetGet parseTs e).2.tailscale.devices = [] ∧
      (fleetGet parseTs e).2.tailscale.meshSize = 0) ∧
    (∀ a a2 ssh,
      (fleetGet parseTs { e with anvilOllama := a, anvilOllamaTs := a2, sshRaw := ssh }).2.machines.hearth =
        (fleetGet parseTs e).2.machines.hearth ∧
      (fleetGet parseTs { e with anvilOllama := a, anvilOllamaTs := a2, sshRaw := ssh }).2.routing =
        (fleetGet parseTs e).2.routing ∧
      (fleetGet parseTs { e with anvilOllama := a, anvilOllamaTs := a2, sshRaw := ssh }).2.tailscale =
        (fleetGet parseTs e).2.tailscale ∧
      (fleetGet parseTs { e with anvilOllama := a, anvilOllamaTs := a2, sshRaw := ssh }).2.machines.nas =
        (fleetGet parseTs e).2.machines.nas ∧
      (fleetGet parseTs { e with anvilOllama := a, anvilOllamaTs := a2, sshRaw := ssh }).2.machines.mobile =
        (fleetGet parseTs e).2.machines.mobile) := by
  refine ⟨rfl, ?_, ?_, ?_⟩
  · intro h
    refine ⟨?_, ?_, ?_, ?_⟩ <;>
      simp [fleetGet, anvilOf, anvilModelsOf, h]
  · intro h
    constructor <;> simp [fleetGet, tsDevicesOf, jsTruthyStr, h]
  · intro a a2 ssh
    exact ⟨rfl, rfl, rfl, rfl, rfl⟩

/-- Concrete instance of fleet_snapshot_degradation at the all-down
environment. -/
theorem fleet_snapshot_degradation_witness :
    envA.anvilOllama.ok = false ∧ envA.tsRaw = none ∧
    (fleetGet noTs envA).1 = 200 ∧
    (fleetGet noTs envA).2.machines.anvil.system = none ∧
    (fleetGet noTs envA).2.machines.anvil.connectivity.lan.reachable = false ∧
    (fleetGet noTs envA).2.tailscale.devices = [] :=
  ⟨rfl, rfl, (fleet_snapshot_degradation noTs envA).1,
   ((fleet_snapshot_degradation noTs envA).2.1 rfl).1,
   ((fleet_snapshot_degradation noTs envA).2.1 rfl).2.1,
   ((fleet_snapshot_degradation noTs envA).2.2.1 rfl).1⟩

/-- Claim C7: the ssh inspection is gated on the cheap probe — with a
failed probe the whole response is independent of the ssh oracle (the
inspection is not invoked) and the system block is null; with a
successful probe the system block is exactly the inspection applied to
the ssh output (it is invoked). -/
theorem fleet_ssh_gated (parseTs : String → Option TsStatus) (e : FleetEnv) (v : Option String) :
    (e.anvilOllama.ok = false →
      fleetGet parseTs { e with sshRaw := v } = fleetGet parseTs e ∧
      (fleetGet parseTs e).2.machines.anvil.system = none) ∧
    (e.anvilOllama.ok = true →
      (fleetGet parseTs e).2.machines.anvil.system = getAnvilSystem e.sshRaw) := by
  constructor
  · intro h
    constructor
    · simp [fleetGet, anvilOf, hearthOf, hearthSystemOf, routingOf, tsDevicesOf, h]
    · simp [fleetGet, anvilOf, h]
  · intro h
    simp [fleetGet, anvilOf, h]

/-- Concrete instance of fleet_ssh_gated: with the probe down, feeding
the handler a fabricated ssh output changes nothing. -/
theorem fleet_ssh_gated_witness :
    envA.anvilOllama.ok = false ∧
    fleetGet noTs { envA with sshRaw := some ("HOSTNAME=x") } = fleetGet noTs envA :=
  ⟨rfl, ((fleet_ssh_gated noTs envA (some ("HOSTNAME=x"))).1 rfl).1⟩

end PL
